import Mathlib

/-!
Shallow embedding of the core of the `so-http10-demo` job-execution service:
the result envelope (`internal/resp`), the job manager (`internal/jobs`),
the worker-pool scheduler (`internal/sched`) and the HTTP/1.0 request parser
(`internal/http10`), together with theorems checking the specification's
claims against these definitions.

Machine integers of the Go source (`int`, `int64`) are modelled as `Int`
(no overflow is relevant to any claim: all quantities stay far below 2^63),
counters as `Nat`, wall-clock instants and durations as nanosecond `Int`
values mirroring Go's `time.Time` / `time.Duration`.
-/

/-! ## Result envelope (package `resp`) -/

/-- Embedding of `resp.ErrObj`: machine code plus human detail. -/
structure ErrObj where
  code : String
  detail : String
deriving DecidableEq, Repr

/-- Embedding of `resp.Result` (the variant with `Headers`, used by the
scheduler and the job manager). Go fields `Status, Body, JSON, Err, Headers`. -/
structure Result where
  status : Int
  body : String
  json : Bool
  err : Option ErrObj
  headers : List (String × String)
deriving DecidableEq, Repr

/-- Embedding of `resp.PlainOK`. -/
def plainOK (body : String) : Result := ⟨200, body, false, none, []⟩

/-- Embedding of `resp.JSONOK`. -/
def jsonOK (body : String) : Result := ⟨200, body, true, none, []⟩

/-- Embedding of `resp.Unavail` (HTTP 503 with error descriptor). -/
def unavail (code detail : String) : Result := ⟨503, "", true, some ⟨code, detail⟩, []⟩

/-- Embedding of `resp.IntErr` (HTTP 500 with error descriptor). -/
def intErr (code detail : String) : Result := ⟨500, "", true, some ⟨code, detail⟩, []⟩

/-- The error code carried by a Result, when an error descriptor is present
(Go: `res.Err != nil && res.Err.Code == c` becomes `errCode res = some c`). -/
def errCode (r : Result) : Option String := r.err.map (fun e => e.code)

/-! ## Job model (package `jobs`) -/

/-- Embedding of `jobs.Status`: the six lifecycle states. -/
inductive Status where
  | queued
  | running
  | done
  | failed
  | timeout
  | canceled
deriving DecidableEq, Repr

/-- Terminal-state test used throughout `jobs` (`done, failed, timeout, canceled`). -/
def isTerminal : Status → Bool
  | Status.done => true
  | Status.failed => true
  | Status.timeout => true
  | Status.canceled => true
  | _ => false

/-- Embedding of `jobs.Job`. Times are nanosecond instants (`Int`); the
`cancel context.CancelFunc` field is modelled by the flag `hasCancel`
(whether the function is non-nil) — the only observation the code makes of
it is the nil test before invoking it. Params (a Go `map[string]string`)
are an association list with last-writer-wins insertion. -/
structure Job where
  id : String
  task : String
  params : List (String × String)
  status : Status
  enqueuedAt : Int
  startedAt : Option Int
  endedAt : Option Int
  result : Option Result
  hasCancel : Bool
deriving DecidableEq, Repr

/-- Lookup in an association-list map (Go map read `m[k]`). -/
def lookupAssoc (m : List (String × String)) (k : String) : Option String :=
  match m with
  | [] => none
  | (k', v) :: rest => if k' = k then some v else lookupAssoc rest k

/-- The job registry `Manager.jobs : map[string]*Job`, as a function map. -/
def Jmap : Type := String → Option Job

/-- Go map write `m[id] = j`. -/
def Jmap.insert (m : Jmap) (id : String) (j : Job) : Jmap :=
  fun k => if k = id then some j else m k

/-- Go map delete `delete(m, id)`. -/
def Jmap.erase (m : Jmap) (id : String) : Jmap :=
  fun k => if k = id then none else m k

/-- The empty registry (`make(map[string]*Job)`). -/
def Jmap.empty : Jmap := fun _ => none

/-! ## Supervisor final transition (`Manager.Submit`, step 4 of the goroutine)

After `pool.SubmitAndWaitCtx` returns `(res, enq)` the supervisor sets
`ended_at`, stores the Result pointer, and switches on `(enq, res)` in the
source order: `!enq` → failed; error code "canceled" → canceled; error code
"timeout" → timeout; `200 <= Status < 300` → done; default → failed. -/

/-- Embedding of the tail of the supervisor goroutine in `Manager.Submit`
(part_008 lines 212–232): the final mutation of the job after
`SubmitAndWaitCtx` returns. -/
def finishJob (j : Job) (res : Result) (enq : Bool) (now : Int) : Job :=
  let base : Job := { j with endedAt := some now, result := some res }
  if !enq then { base with status := Status.failed }
  else if errCode res = some "canceled" then { base with status := Status.canceled }
  else if errCode res = some "timeout" then { base with status := Status.timeout }
  else if 200 ≤ res.status ∧ res.status < 300 then { base with status := Status.done }
  else { base with status := Status.failed }

/-! ## Cancel (`Manager.Cancel`) -/

/-- Outcome of `Manager.Cancel`: the returned `(message, found)` pair, the
registry after the call, whether the job's cancel function was invoked, and
the journal records appended during the call. -/
structure CancelOut where
  msg : String
  found : Bool
  jobs : Jmap
  invoked : Bool
  journaled : Bool

/-- Embedding of `Manager.Cancel` (part_008 lines 239–273). The Go `switch`
on `j.Status` has cases for the four terminal states, `queued`, `running`,
and a default arm (unreachable for the six-valued status but present in the
source). -/
def cancelJob (m : Jmap) (id : String) (now : Int) : CancelOut :=
  match m id with
  | none => ⟨"not_found", false, m, false, false⟩
  | some j =>
    match j.status with
    | Status.done => ⟨"not_cancelable", true, m, false, false⟩
    | Status.failed => ⟨"not_cancelable", true, m, false, false⟩
    | Status.timeout => ⟨"not_cancelable", true, m, false, false⟩
    | Status.canceled => ⟨"not_cancelable", true, m, false, false⟩
    | Status.queued =>
      let j' : Job := { j with status := Status.canceled, endedAt := some now }
      ⟨"canceled", true, m.insert id j', j.hasCancel, true⟩
    | Status.running =>
      if j.hasCancel then ⟨"canceled", true, m, true, false⟩
      else ⟨"not_cancelable", true, m, false, false⟩

/-! ## Journal replay (`Manager.loadJournal`)

The journal is a JSONL file of records `{type:"upsert"|"delete", job?, id?}`.
A line is modelled after decoding: `corrupt` stands for a line that fails
`json.Unmarshal` (including the empty line), `unknown` for a well-formed
record whose `type` is neither "upsert" nor "delete". -/

/-- A decoded journal line (`jobs.journalRecord`). -/
inductive JournalRec where
  | upsert (job : Option Job)
  | delete (id : String)
  | unknown
  | corrupt
deriving DecidableEq, Repr

/-- Embedding of one iteration of the scanner loop in `Manager.loadJournal`
(part_008 lines 106–128). The decoded job's cancel function is always nil
(the field carries the tag that omits it from JSON), hence
`hasCancel := false` on restore; a restored queued/running status is demoted
to failed with the synthetic `restart` result and `ended_at = now`. -/
def replayRec (now : Int) (m : Jmap) : JournalRec → Jmap
  | JournalRec.upsert none => m
  | JournalRec.upsert (some j0) =>
    let j1 : Job := { j0 with hasCancel := false }
    let j : Job :=
      if j1.status = Status.queued ∨ j1.status = Status.running then
        { j1 with status := Status.failed, endedAt := some now,
                  result := some (intErr "restart" "job interrupted by restart") }
      else j1
    m.insert j.id j
  | JournalRec.delete id => m.erase id
  | JournalRec.unknown => m
  | JournalRec.corrupt => m

/-- The scanner loop of `loadJournal`: records applied in file order. -/
def replayList (now : Int) (m : Jmap) (rs : List JournalRec) : Jmap :=
  rs.foldl (replayRec now) m

/-- Embedding of `Manager.loadJournal` itself: `none` models a missing file
(`os.Open` fails and the function returns with the startup-empty map),
`some rs` the decoded lines of an existing file. -/
def loadJournal (file : Option (List JournalRec)) (now : Int) : Jmap :=
  match file with
  | none => Jmap.empty
  | some rs => replayList now Jmap.empty rs

/-! ## Pool construction (`sched.NewPool`) -/

/-- Embedding of `sched.imax`. -/
def imax (a b : Int) : Int := if a > b then a else b

/-- Embedding of the clamping and queue sizing in `sched.NewPool` (sched.go
lines 85–104): `workers ≤ 0` becomes 1, `capacity ≤ 0` becomes 1, and the
clamped capacity splits 1:2:1 over the sub-queues. Go's `/` on `int`
truncates toward zero, which on the nonnegative operands appearing here
coincides with Lean's `/` on `Int`. Returns
`(workers, cap qHigh, cap qNorm, cap qLow)`. -/
def newPoolSizes (workers capacity : Int) : Int × Int × Int × Int :=
  let w := if workers ≤ 0 then 1 else workers
  let c := if capacity ≤ 0 then 1 else capacity
  let ch := imax 1 (c / 4)
  let cn := imax 1 (c / 2)
  let cl := imax 1 (c - ch - cn)
  (w, ch, cn, cl)

/-! ## Progress and ETA derivation (`jobs.deriveProgressETA`) -/

/-- Decimal parse of the `seconds` parameter: the value of a non-empty
all-digit string, else `none`. `time.ParseDuration(secStr+"s")` accepts
further shapes (signs, fractions, ...) that the claims do not exercise —
on a plain decimal integer `N` it yields `N` seconds, as here. -/
def parseNatDigits (s : String) : Option Nat :=
  if s.isEmpty then none
  else if s.toList.all Char.isDigit then
    some (s.toList.foldl (fun n c => n * 10 + (c.toNat - 48)) 0)
  else none

/-- Embedding of `jobs.deriveProgressETA` (part_008 lines 339–366), with
`now` standing for `time.Now()` inside `time.Since` and durations in
nanoseconds. Go computes the percentage as
`int(float64(el)/float64(d)*100.0)`; on the nonnegative operands here that
float expression is the real quotient truncated, modelled exactly as
`el * 100 / d`. `remain.Milliseconds()` is truncated division by 10^6. -/
def deriveProgressETA (j : Job) (now : Int) : Option Int × Option Int :=
  match j.status, j.startedAt with
  | Status.running, some t0 =>
    (match j.task with
     | "sleep" =>
       let secStr := (lookupAssoc j.params "seconds").getD ""
       match parseNatDigits secStr with
       | none => (none, none)
       | some n =>
         let d : Int := (n : Int) * 1000000000
         if d ≤ 0 then (none, none)
         else
           let el0 : Int := now - t0
           let el : Int := if el0 < 0 then 0 else el0
           if d ≤ el then (some 100, some 0)
           else (some (el * 100 / d), some ((d - el) / 1000000))
     | _ => (none, none))
  | _, _ => (none, none)

/-! ## Submission protocol (`Pool.SubmitAndWaitCtx`)

The two `select` races of the submission path are modelled by the event
that fires first in each: the channel send succeeding, the timer, or the
caller context's done channel. -/

/-- The event that wins the enqueue-phase race (sched.go lines 154–162). -/
inductive EnqEvent where
  | sent
  | timerFired
  | ctxDone
deriving DecidableEq, Repr

/-- The event that wins the result-wait race (sched.go lines 166–173). -/
inductive ExecEvent where
  | delivered (r : Result)
  | timerFired
  | ctxDone
deriving DecidableEq, Repr

/-- The two counters `Pool.SubmitAndWaitCtx` touches. -/
structure SubmitCounters where
  submitted : Nat
  rejected : Nat
deriving DecidableEq, Repr

/-- Embedding of `Pool.SubmitAndWaitCtx` (sched.go lines 126–174) as a
function of the race outcomes: the closed-pool early return, then the
enqueue race (send → `submitted++`; timer → `rejected++` and the 503
backpressure result with `enqueued = false`; ctx done → 503 canceled), then
the result-wait race. Returns (counters, Result, enqueued). -/
def submitAndWaitCtx (closedFlag : Bool) (c : SubmitCounters)
    (e1 : EnqEvent) (e2 : ExecEvent) : SubmitCounters × Result × Bool :=
  if closedFlag then (c, unavail "closed" "pool closed", true)
  else
    match e1 with
    | EnqEvent.timerFired =>
      ({ c with rejected := c.rejected + 1 },
       unavail "backpressure" "\x7b\"retry_after_ms\":100\x7d", false)
    | EnqEvent.ctxDone => (c, unavail "canceled" "job canceled", true)
    | EnqEvent.sent =>
      let c' := { c with submitted := c.submitted + 1 }
      match e2 with
      | ExecEvent.delivered r => (c', r, true)
      | ExecEvent.timerFired => (c', unavail "timeout" "execution timed out", true)
      | ExecEvent.ctxDone => (c', unavail "canceled" "job canceled", true)

/-! ## Pool counter step relation (`Pool.SubmitAndWaitCtx` + `Pool.Start`)

An abstract-state view of one pool for the counter invariants: the
aggregate number of queued items, the busy workers, and the three atomic
counters. Transitions correspond to the counter-touching points of the
submit path and the worker loop. -/

/-- Abstract pool state: aggregate queue occupancy, busy workers, counters. -/
structure PoolSt where
  queued : Nat
  busy : Nat
  submitted : Nat
  completed : Nat
  rejected : Nat
deriving DecidableEq, Repr

/-- One transition of a pool with `total` workers and aggregate queue
capacity `qcap`: a successful enqueue (`ch <- w; submitted++`), a
backpressure rejection (`rejected++`), a worker consuming an item whose
context was already cancelled (the pre-run check: no counters), a worker
starting a handler (`busy++` after dequeue), and a handler finishing
(`busy--; completed++`). -/
inductive PoolStep (total qcap : Nat) : PoolSt → PoolSt → Prop where
  | enqueue (s : PoolSt) : s.queued < qcap →
      PoolStep total qcap s
        { s with queued := s.queued + 1, submitted := s.submitted + 1 }
  | reject (s : PoolSt) :
      PoolStep total qcap s { s with rejected := s.rejected + 1 }
  | dequeueCanceled (s : PoolSt) : 0 < s.queued →
      PoolStep total qcap s { s with queued := s.queued - 1 }
  | beginRun (s : PoolSt) : 0 < s.queued → s.busy < total →
      PoolStep total qcap s
        { s with queued := s.queued - 1, busy := s.busy + 1 }
  | endRun (s : PoolSt) : 0 < s.busy →
      PoolStep total qcap s
        { s with busy := s.busy - 1, completed := s.completed + 1 }

/-- States reachable from the freshly started pool (all zero). -/
inductive PoolReach (total qcap : Nat) : PoolSt → Prop where
  | init : PoolReach total qcap ⟨0, 0, 0, 0, 0⟩
  | step (s s' : PoolSt) : PoolReach total qcap s → PoolStep total qcap s s' →
      PoolReach total qcap s'

/-! ## Synchronous part of `Manager.Submit` and TTL eviction -/

/-- The job-manager state seen by `Submit`: the registry plus the set of
registered pool names (`sched.Manager.Pool` presence). -/
structure MgrState where
  jobs : Jmap
  pools : String → Bool

/-- Embedding of the synchronous prefix of `Manager.Submit` (part_008 lines
163–185): pool lookup (absent → empty id), job creation in state queued
with `enqueued_at = now` and the fresh cancel function, registry insert and
journal append — all before the supervisor goroutine runs. `idg` stands for
the id drawn from `util.NewReqID` (16 hex chars). Returns the new state and
the returned id. -/
def submitSync (st : MgrState) (task : String) (params : List (String × String))
    (idg : String) (now : Int) : MgrState × String :=
  if st.pools task = false then (st, "")
  else
    let job : Job := { id := idg, task := task, params := params,
                       status := Status.queued, enqueuedAt := now,
                       startedAt := none, endedAt := none, result := none,
                       hasCancel := true }
    ({ st with jobs := st.jobs.insert idg job }, idg)

/-- Embedding of the found flag of `Manager.SnapshotJSON` (part_008 lines
277–288): the snapshot exists exactly when the id is in the registry. -/
def snapshotFound (m : Jmap) (id : String) : Bool := (m id).isSome

/-- Embedding of `Manager.cleanup` (part_008 lines 146–157): the TTL GC
pass deletes exactly the terminal jobs whose `ended_at` is before the
cutoff `now − ttl`. -/
def cleanup (m : Jmap) (cut : Int) : Jmap :=
  fun id =>
    match m id with
    | none => none
    | some j =>
      if isTerminal j.status &&
         (match j.endedAt with | some t => decide (t < cut) | none => false)
      then none else some j

/-! ## HTTP/1.0 request parser (`http10.ParseRequest`)

`ParseRequest` reads CRLF-terminated lines with `bufio.Reader.ReadString`.
The byte stream is modelled as the characters still readable followed by
the error the reader reports once no full line remains (`io.EOF` for a
clean close, or any other read error). `ReadString('\n')` then yields the
next complete line, or the leftover data together with that error —
iterating it is exactly `splitLines`. -/

/-- The error a read reports at stream end: `io.EOF` or any other error. -/
inductive IOErr where
  | eof
  | other
deriving DecidableEq, Repr

/-- How a parse ends: `badRequest` is `http10.ErrBadRequest`, `badProto` is
`http10.ErrBadProto`, and `ioerr e` is a raw reader error the parser
returned unchanged. -/
inductive ParseErr where
  | badRequest
  | badProto
  | ioerr (e : IOErr)
deriving DecidableEq, Repr

/-- Embedding of `http10.Request`. The header map (lower-cased keys,
last-writer-wins) is an association list built with `hinsert`. -/
structure Request where
  method : String
  target : String
  proto : String
  header : List (String × String)
deriving DecidableEq, Repr

/-- The input to `ParseRequest`: remaining bytes and the tail error. -/
structure ByteStream where
  content : List Char
  tailErr : IOErr
deriving DecidableEq, Repr

/-- Iterated `ReadString('\n')`: the complete (newline-terminated) lines in
order, and the leftover bytes after the last newline. -/
def splitLines : List Char → List (List Char) × List Char
  | [] => ([], [])
  | c :: cs =>
    if c = '\n' then
      (['\n'] :: (splitLines cs).1, (splitLines cs).2)
    else
      match splitLines cs with
      | (l :: ls, rem) => ((c :: l) :: ls, rem)
      | ([], rem) => ([], c :: rem)

/-- Go `strings.HasSuffix(line, CRLF)` on a character list. -/
def endsCRLF (l : List Char) : Bool :=
  match l.reverse with
  | '\n' :: '\r' :: _ => true
  | _ => false

/-- Character class of Go `strings.TrimRight(l, CRLF-cutset)`. -/
def isCRLFChar (c : Char) : Bool := c = '\r' || c = '\n'

/-- Go `strings.TrimRight(l, CRLF-cutset)`: drop all trailing CR/LF. -/
def trimRightCRLF (l : List Char) : List Char :=
  (l.reverse.dropWhile isCRLFChar).reverse

/-- Go `strings.Split(s, " ")`: split on every space, keeping empties. -/
def splitOnSpace : List Char → List (List Char)
  | [] => [[]]
  | c :: cs =>
    if c = ' ' then [] :: splitOnSpace cs
    else
      match splitOnSpace cs with
      | r :: rs => (c :: r) :: rs
      | [] => [[c]]

/-- Go `strings.SplitN(l, ":", 2)`: `some (before, after)` at the first
colon; `none` when there is no colon (the length-1 result). -/
def splitFirstColon : List Char → Option (List Char × List Char)
  | [] => none
  | c :: cs =>
    if c = ':' then some ([], cs)
    else
      match splitFirstColon cs with
      | some (a, b) => some (c :: a, b)
      | none => none

/-- White space trimmed by Go `strings.TrimSpace` (which trims Unicode
space; header fields here only carry ASCII). -/
def isSpaceChar (c : Char) : Bool := c = ' ' || c = '\t' || c = '\r' || c = '\n'

/-- Go `strings.TrimSpace` on a character list. -/
def trimSpaceList (l : List Char) : List Char :=
  ((l.dropWhile isSpaceChar).reverse.dropWhile isSpaceChar).reverse

/-- Go map write `h[key] = val` for the header map: overwrite or append. -/
def hinsert (h : List (String × String)) (k v : String) : List (String × String) :=
  match h with
  | [] => [(k, v)]
  | (k0, v0) :: rest => if k0 = k then (k, v) :: rest else (k0, v0) :: hinsert rest k v

/-- Embedding of the header loop of `ParseRequest` (parser.go lines 51–74)
over the remaining complete lines: at stream end the reader's error is EOF
(→ `ErrBadRequest`) or something else (→ returned unchanged); a bare CRLF
line ends the headers; a line without CRLF suffix or without a colon is
`ErrBadRequest`; otherwise the key is trimmed, lower-cased and written. -/
def parseHeaderLines : List (List Char) → IOErr → List (String × String) →
    Except ParseErr (List (String × String))
  | [], IOErr.eof, _ => Except.error ParseErr.badRequest
  | [], IOErr.other, _ => Except.error (ParseErr.ioerr IOErr.other)
  | l :: rest, te, h =>
    if l = ['\r', '\n'] then Except.ok h
    else if !endsCRLF l then Except.error ParseErr.badRequest
    else
      match splitFirstColon (trimRightCRLF l) with
      | none => Except.error ParseErr.badRequest
      | some (k, v) =>
        parseHeaderLines rest te
          (hinsert h (String.mk ((trimSpaceList k).map Char.toLower))
                     (String.mk (trimSpaceList v)))

/-- Embedding of `http10.ParseRequest` (parser.go lines 32–77): the first
`ReadString` error (no complete request line) is returned unchanged; the
request line must end in CRLF and split on spaces into exactly three
tokens; the protocol token must be `HTTP/1.0`; then the headers are parsed
by `parseHeaderLines`. -/
def parseRequest (s : ByteStream) : Except ParseErr Request :=
  match (splitLines s.content).1 with
  | [] => Except.error (ParseErr.ioerr s.tailErr)
  | line :: rest =>
    if !endsCRLF line then Except.error ParseErr.badRequest
    else
      match splitOnSpace (trimRightCRLF line) with
      | [m, t, p] =>
        if String.mk p ≠ "HTTP/1.0" then Except.error ParseErr.badProto
        else
          match parseHeaderLines rest s.tailErr [] with
          | Except.error e => Except.error e
          | Except.ok h =>
            Except.ok (Request.mk (String.mk m) (String.mk t) (String.mk p) h)
      | _ => Except.error ParseErr.badRequest

/-! ## Claim theorems -/

/-- C1: after `SubmitAndWaitCtx` returns `(res, enq)` the supervisor sets
`ended_at = now`, records the Result reference, and assigns the final status
in this case order: `enq = false` → failed; error code "canceled" →
canceled; error code "timeout" → timeout; result status in 200–299 → done;
anything else → failed. -/
theorem supervisor_final_status (j : Job) (res : Result) (enq : Bool) (now : Int) :
    (finishJob j res enq now).endedAt = some now ∧
    (finishJob j res enq now).result = some res ∧
    (enq = false → (finishJob j res enq now).status = Status.failed) ∧
    (enq = true → errCode res = some "canceled" →
      (finishJob j res enq now).status = Status.canceled) ∧
    (enq = true → errCode res ≠ some "canceled" → errCode res = some "timeout" →
      (finishJob j res enq now).status = Status.timeout) ∧
    (enq = true → errCode res ≠ some "canceled" → errCode res ≠ some "timeout" →
      200 ≤ res.status → res.status < 300 →
      (finishJob j res enq now).status = Status.done) ∧
    (enq = true → errCode res ≠ some "canceled" → errCode res ≠ some "timeout" →
      ¬(200 ≤ res.status ∧ res.status < 300) →
      (finishJob j res enq now).status = Status.failed) := by
  unfold finishJob
  refine ⟨?_, ?_, ?_, ?_, ?_, ?_, ?_⟩
  · cases enq <;> simp <;> split_ifs <;> rfl
  · cases enq <;> simp <;> split_ifs <;> rfl
  · intro h; subst h; simp
  · intro h hc; subst h; simp [hc]
  · intro h hnc hc; subst h; simp [hnc, hc]
  · intro h hnc hnt h1 h2; subst h; simp [hnc, hnt, h1, h2]
  · intro h hnc hnt hno; subst h; simp [hnc, hnt]
    rw [if_neg hno]

/-- Witness for `supervisor_final_status` at a concrete timed-out result. -/
theorem supervisor_final_status_witness :
    (finishJob
      ⟨"j1", "sleep", [], Status.running, 0, some 5, none, none, true⟩
      (unavail "timeout" "execution timed out") true 42).status = Status.timeout := by
  have h := supervisor_final_status
    ⟨"j1", "sleep", [], Status.running, 0, some 5, none, none, true⟩
    (unavail "timeout" "execution timed out") true 42
  exact h.2.2.2.2.1 rfl (by decide) (by decide)

/-- C3: `Cancel(id)`: absent id → `("not_found", false)`; terminal status →
`("not_cancelable", true)` with the registry unmutated; queued → cancel
function invoked (when present), status set to canceled with
`ended_at = now`, a journal record appended, `("canceled", true)` returned;
running (with a cancel function) → cancel invoked and `("canceled", true)`
returned with the registry unmutated — Cancel itself sets no terminal state. -/
theorem cancel_cases (m : Jmap) (id : String) (now : Int) :
    (m id = none →
      (cancelJob m id now).msg = "not_found" ∧ (cancelJob m id now).found = false ∧
      (cancelJob m id now).jobs = m) ∧
    (∀ j, m id = some j → isTerminal j.status = true →
      (cancelJob m id now).msg = "not_cancelable" ∧ (cancelJob m id now).found = true ∧
      (cancelJob m id now).jobs = m ∧ (cancelJob m id now).invoked = false) ∧
    (∀ j, m id = some j → j.status = Status.queued →
      (cancelJob m id now).msg = "canceled" ∧ (cancelJob m id now).found = true ∧
      (cancelJob m id now).invoked = j.hasCancel ∧
      (cancelJob m id now).journaled = true ∧
      (cancelJob m id now).jobs id =
        some { j with status := Status.canceled, endedAt := some now }) ∧
    (∀ j, m id = some j → j.status = Status.running → j.hasCancel = true →
      (cancelJob m id now).msg = "canceled" ∧ (cancelJob m id now).found = true ∧
      (cancelJob m id now).invoked = true ∧
      (cancelJob m id now).jobs = m) := by
  refine ⟨?_, ?_, ?_, ?_⟩
  · intro h
    simp [cancelJob, h]
  · intro j hm ht
    cases hstat : j.status <;> simp [hstat, isTerminal] at ht <;>
      simp [cancelJob, hm, hstat]
  · intro j hm hq
    simp [cancelJob, hm, hq, Jmap.insert]
  · intro j hm hr hc
    simp [cancelJob, hm, hr, hc]

/-- Witness for `cancel_cases`: a registry holding one queued job with a
cancel function; Cancel cancels it and sets `ended_at`. -/
theorem cancel_cases_witness :
    let j : Job := ⟨"a", "sleep", [], Status.queued, 0, none, none, none, true⟩
    let m : Jmap := Jmap.empty.insert "a" j
    (cancelJob m "a" 7).msg = "canceled" ∧ (cancelJob m "a" 7).found = true ∧
    (cancelJob m "a" 7).invoked = true ∧ (cancelJob m "a" 7).journaled = true ∧
    (cancelJob m "a" 7).jobs "a" =
      some { j with status := Status.canceled, endedAt := some 7 } := by
  intro j m
  have h := (cancel_cases m "a" 7).2.2.1 j (by rfl) (by rfl)
  exact ⟨h.1, h.2.1, h.2.2.1, h.2.2.2.1, h.2.2.2.2⟩

/-- Helper for idempotence: replaying a record list over two starting maps
either yields the same value at a key (the key was written by the list) or
leaves each starting map's value at that key untouched. -/
theorem replayList_agree (rs : List JournalRec) (now : Int) (m m' : Jmap) (k : String) :
    replayList now m rs k = replayList now m' rs k ∨
    (replayList now m rs k = m k ∧ replayList now m' rs k = m' k) := by
  induction rs generalizing m m' with
  | nil => right; exact ⟨rfl, rfl⟩
  | cons r rs ih =>
    have hstep : replayList now m (r :: rs) = replayList now (replayRec now m r) rs := rfl
    have hstep' : replayList now m' (r :: rs) = replayList now (replayRec now m' r) rs := rfl
    rw [hstep, hstep']
    rcases ih (replayRec now m r) (replayRec now m' r) with h | ⟨h1, h2⟩
    · left; exact h
    · rw [h1, h2]
      cases r with
      | upsert oj =>
        cases oj with
        | none => right; exact ⟨rfl, rfl⟩
        | some j0 =>
          by_cases hd : j0.status = Status.queued ∨ j0.status = Status.running
          · by_cases hk : k = j0.id
            · left; simp [replayRec, Jmap.insert, hd, hk]
            · right; constructor <;> simp [replayRec, Jmap.insert, hd, hk]
          · by_cases hk : k = j0.id
            · left; simp [replayRec, Jmap.insert, hd, hk]
            · right; constructor <;> simp [replayRec, Jmap.insert, hd, hk]
      | delete i =>
        by_cases hk : k = i
        · left; simp [replayRec, Jmap.erase, hk]
        · right; constructor <;> simp [replayRec, Jmap.erase, hk]
      | unknown => right; exact ⟨rfl, rfl⟩
      | corrupt => right; exact ⟨rfl, rfl⟩

/-- C4: startup replay processes records in order: an upsert restores the
job snapshot (cancel function not serialized), demoting a restored
queued/running status to failed with internal error code "restart" and
`ended_at = now`; a delete removes the entry by id; corrupt, unrecognized,
empty and job-less records are skipped; a missing journal file leaves the
job map empty. -/
theorem journal_replay_cases (now : Int) :
    (loadJournal none now = Jmap.empty) ∧
    (∀ rs, loadJournal (some rs) now = replayList now Jmap.empty rs) ∧
    (∀ (m : Jmap) (j : Job), (j.status = Status.queued ∨ j.status = Status.running) →
      replayRec now m (JournalRec.upsert (some j)) j.id =
        some { j with status := Status.failed, endedAt := some now,
                      result := some (intErr "restart" "job interrupted by restart"),
                      hasCancel := false }) ∧
    (∀ (m : Jmap) (j : Job), j.status ≠ Status.queued → j.status ≠ Status.running →
      replayRec now m (JournalRec.upsert (some j)) j.id =
        some { j with hasCancel := false }) ∧
    (∀ (m : Jmap) (j : Job) (k : String), k ≠ j.id →
      replayRec now m (JournalRec.upsert (some j)) k = m k) ∧
    (∀ (m : Jmap) (id : String), replayRec now m (JournalRec.delete id) id = none) ∧
    (∀ (m : Jmap) (id k : String), k ≠ id → replayRec now m (JournalRec.delete id) k = m k) ∧
    (∀ (m : Jmap), replayRec now m JournalRec.corrupt = m ∧
      replayRec now m JournalRec.unknown = m ∧
      replayRec now m (JournalRec.upsert none) = m) := by
  refine ⟨rfl, fun rs => rfl, ?_, ?_, ?_, ?_, ?_, fun m => ⟨rfl, rfl, rfl⟩⟩
  · intro m j hqr
    simp only [replayRec, Jmap.insert]
    rcases hqr with h | h <;> simp [h]
  · intro m j hq hr
    simp only [replayRec, Jmap.insert]
    simp [hq, hr]
  · intro m j k hk
    simp only [replayRec, Jmap.insert]
    split <;> simp [hk]
  · intro m id
    simp [replayRec, Jmap.erase]
  · intro m id k hk
    simp [replayRec, Jmap.erase, hk]

/-- Witness for `journal_replay_cases`: replaying an upsert of a running job
demotes it to failed with the restart result. -/
theorem journal_replay_cases_witness :
    let j : Job := ⟨"r1", "spin", [], Status.running, 3, some 4, none, none, false⟩
    replayRec 99 Jmap.empty (JournalRec.upsert (some j)) "r1" =
      some { j with status := Status.failed, endedAt := some 99,
                    result := some (intErr "restart" "job interrupted by restart"),
                    hasCancel := false } := by
  intro j
  exact (journal_replay_cases 99).2.2.1 Jmap.empty j (Or.inr rfl)

/-- C5: journal replay is idempotent — replaying the same record sequence a
second time, on top of the map produced by the first pass, yields the same
map as a single pass. -/
theorem journal_replay_idempotent (now : Int) (rs : List JournalRec) :
    replayList now (replayList now Jmap.empty rs) rs = replayList now Jmap.empty rs := by
  funext k
  rcases replayList_agree rs now (replayList now Jmap.empty rs) Jmap.empty k with h | ⟨h1, _⟩
  · exact h
  · exact h1

/-- C7: `NewPool` clamps `workers ≤ 0` to 1, clamps `capacity ≤ 0` so that
every sub-queue holds at least one slot, and for a positive user-supplied
capacity sizes the sub-queues as `high = max(1, cap/4)`,
`normal = max(1, cap/2)`, `low = max(1, cap − high − normal)`; each
sub-queue capacity is at least 1 for every input. -/
theorem newPool_clamps (workers capacity : Int) :
    1 ≤ (newPoolSizes workers capacity).1 ∧
    1 ≤ (newPoolSizes workers capacity).2.1 ∧
    1 ≤ (newPoolSizes workers capacity).2.2.1 ∧
    1 ≤ (newPoolSizes workers capacity).2.2.2 ∧
    (workers ≤ 0 → (newPoolSizes workers capacity).1 = 1) ∧
    (0 < workers → (newPoolSizes workers capacity).1 = workers) ∧
    (0 < capacity →
      (newPoolSizes workers capacity).2.1 = imax 1 (capacity / 4) ∧
      (newPoolSizes workers capacity).2.2.1 = imax 1 (capacity / 2) ∧
      (newPoolSizes workers capacity).2.2.2 =
        imax 1 (capacity - imax 1 (capacity / 4) - imax 1 (capacity / 2))) := by
  have him : ∀ x : Int, 1 ≤ imax 1 x := by
    intro x; unfold imax; split <;> omega
  refine ⟨?_, ?_, ?_, ?_, ?_, ?_, ?_⟩
  · simp only [newPoolSizes]; split <;> omega
  · simp only [newPoolSizes]; exact him _
  · simp only [newPoolSizes]; exact him _
  · simp only [newPoolSizes]; exact him _
  · intro hw; simp only [newPoolSizes]; rw [if_pos hw]
  · intro hw; simp only [newPoolSizes]; rw [if_neg (by omega)]
  · intro hc
    simp only [newPoolSizes]
    rw [if_neg (by omega)]
    exact ⟨rfl, rfl, rfl⟩

/-- Witness for `newPool_clamps` at `workers = -3, capacity = 8`. -/
theorem newPool_clamps_witness :
    (newPoolSizes (-3) 8).1 = 1 ∧ (newPoolSizes (-3) 8).2.1 = imax 1 (8 / 4) ∧
    1 ≤ (newPoolSizes (-3) 8).2.2.2 := by
  exact ⟨(newPool_clamps (-3) 8).2.2.2.2.1 (by norm_num),
         ((newPool_clamps (-3) 8).2.2.2.2.2.2 (by norm_num)).1,
         (newPool_clamps (-3) 8).2.2.2.1⟩

/-- C2: with the pool open, the enqueue-phase timer firing first yields
exactly the 503 backpressure result with the retry_after_ms hint detail and
`enqueued = false`, incrementing `rejected` by one and leaving `submitted`
unchanged; over all race outcomes, `rejected` increases (by exactly one)
if and only if the submission returned a 503 result with
`enqueued = false`; context cancellation before enqueue leaves `rejected`
unchanged. -/
theorem backpressure_rejected (cf : Bool) (c : SubmitCounters)
    (e1 : EnqEvent) (e2 : ExecEvent) :
    (cf = false → e1 = EnqEvent.timerFired →
      (submitAndWaitCtx cf c e1 e2).2.1 =
        unavail "backpressure" "\x7b\"retry_after_ms\":100\x7d" ∧
      (submitAndWaitCtx cf c e1 e2).2.2 = false ∧
      (submitAndWaitCtx cf c e1 e2).1.rejected = c.rejected + 1 ∧
      (submitAndWaitCtx cf c e1 e2).1.submitted = c.submitted) ∧
    ((submitAndWaitCtx cf c e1 e2).1.rejected = c.rejected + 1 ↔
      (submitAndWaitCtx cf c e1 e2).2.1.status = 503 ∧
      (submitAndWaitCtx cf c e1 e2).2.2 = false) ∧
    ((submitAndWaitCtx cf c e1 e2).1.rejected = c.rejected ∨
      (submitAndWaitCtx cf c e1 e2).1.rejected = c.rejected + 1) ∧
    (e1 = EnqEvent.ctxDone → cf = false →
      (submitAndWaitCtx cf c e1 e2).1.rejected = c.rejected) := by
  cases cf <;> cases e1 <;> cases e2 <;>
    simp [submitAndWaitCtx, unavail] <;> omega

/-- Witness for `backpressure_rejected`: timer fires at enqueue on an open
pool with zeroed counters. -/
theorem backpressure_rejected_witness :
    (submitAndWaitCtx false ⟨0, 0⟩ EnqEvent.timerFired ExecEvent.timerFired).2.2 = false ∧
    (submitAndWaitCtx false ⟨0, 0⟩ EnqEvent.timerFired ExecEvent.timerFired).1.rejected = 0 + 1 := by
  have h := (backpressure_rejected false ⟨0, 0⟩ EnqEvent.timerFired ExecEvent.timerFired).1
    rfl rfl
  exact ⟨h.2.1, h.2.2.1⟩

/-- C8 counterexample: for a running sleep job with `seconds = 1` started
at `t0 = 0` and observed at `now = 999999999` ns — an elapsed time `e` with
`0 ≤ e < N` seconds — the code derives `eta_ms = 0`, outside the interval
`(0, N·1000]` that the claim asserts (the sub-millisecond remainder
truncates to zero). -/
theorem progress_eta_counterexample :
    (deriveProgressETA
      ⟨"s1", "sleep", [("seconds", "1")], Status.running, 0, some 0, none, none, true⟩
      999999999).2 = some 0 ∧
    (0 : Int) ≤ 999999999 - 0 ∧ (999999999 - 0 : Int) < 1 * 1000000000 ∧
    ¬((0 : Int) < 0) := by
  refine ⟨?_, by norm_num, by norm_num, by norm_num⟩
  rfl

/-- C8 amended: for a sleep job with `seconds = N > 0` running since `T`,
at `T+e` with `0 ≤ e < N` seconds the derived progress lies in `[0, 99]`
and `eta_ms` lies in `[0, N·1000]` (the remaining time truncated to whole
milliseconds — 0 when under one millisecond remains); at `e ≥ N` they are
`100` and `0`; for any other task, non-running status or absent
`started_at` both fields are absent. -/
theorem progress_eta_bounds (j : Job) (now : Int) :
    (∀ t0 n, j.task = "sleep" → j.status = Status.running → j.startedAt = some t0 →
      parseNatDigits ((lookupAssoc j.params "seconds").getD "") = some n → 0 < n →
      (0 ≤ now - t0 → now - t0 < (n : Int) * 1000000000 →
        ∃ p q, deriveProgressETA j now = (some p, some q) ∧
          0 ≤ p ∧ p ≤ 99 ∧ 0 ≤ q ∧ q ≤ (n : Int) * 1000 ∧
          q = ((n : Int) * 1000000000 - (now - t0)) / 1000000) ∧
      ((n : Int) * 1000000000 ≤ now - t0 →
        deriveProgressETA j now = (some 100, some 0))) ∧
    (j.task ≠ "sleep" → deriveProgressETA j now = (none, none)) ∧
    (j.status ≠ Status.running → deriveProgressETA j now = (none, none)) ∧
    (j.startedAt = none → deriveProgressETA j now = (none, none)) := by
  refine ⟨?_, ?_, ?_, ?_⟩
  · intro t0 n htask hst hstart hsec hn
    have hd : (0 : Int) < (n : Int) * 1000000000 := by omega
    constructor
    · intro he0 helt
      refine ⟨(now - t0) * 100 / ((n : Int) * 1000000000),
              ((n : Int) * 1000000000 - (now - t0)) / 1000000, ?_, ?_, ?_, ?_, ?_, rfl⟩
      · simp only [deriveProgressETA, hst, hstart, htask, hsec]
        rw [if_neg (by omega), if_neg (by omega), if_neg (by omega)]
      · exact Int.ediv_nonneg (by omega) (by omega)
      · have h100 : (now - t0) * 100 / ((n : Int) * 1000000000) < 100 := by
          rw [Int.ediv_lt_iff_lt_mul hd]
          omega
        omega
      · exact Int.ediv_nonneg (by omega) (by norm_num)
      · have hmono : ((n : Int) * 1000000000 - (now - t0)) / 1000000 ≤
            ((n : Int) * 1000000000) / 1000000 :=
          Int.ediv_le_ediv (by norm_num) (by omega)
        omega
    · intro hge
      simp only [deriveProgressETA, hst, hstart, htask, hsec]
      rw [if_neg (by omega)]
      rw [if_pos (by split <;> omega)]
  · intro htask
    simp only [deriveProgressETA]
    cases hst : j.status <;> cases hstart : j.startedAt <;> simp_all [deriveProgressETA]
  · intro hst
    cases h : j.status <;> cases hs : j.startedAt <;> simp_all [deriveProgressETA]
  · intro hstart
    cases h : j.status <;> simp_all [deriveProgressETA]

/-- Witness for `progress_eta_bounds`: a sleep job with seconds = 2 observed
half a second in. -/
theorem progress_eta_bounds_witness :
    ∃ p q, deriveProgressETA
      ⟨"s2", "sleep", [("seconds", "2")], Status.running, 0, some 0, none, none, true⟩
      500000000 = (some p, some q) ∧
      0 ≤ p ∧ p ≤ 99 ∧ 0 ≤ q ∧ q ≤ (2 : Int) * 1000 ∧
      q = ((2 : Nat) : Int) * 1000000000 / 1000000 - 500 := by
  have h := ((progress_eta_bounds
    ⟨"s2", "sleep", [("seconds", "2")], Status.running, 0, some 0, none, none, true⟩
    500000000).1 0 2 rfl rfl rfl (by rfl) (by norm_num)).1 (by norm_num) (by norm_num)
  obtain ⟨p, q, heq, h0, h99, hq0, hqn, hqv⟩ := h
  exact ⟨p, q, heq, h0, h99, hq0, hqn, by rw [hqv]; norm_num⟩

/-- Inductive invariant carrying the pool counter claims: every item that
completed, is running, or is queued was once submitted, and busy workers
never exceed the worker count. -/
theorem poolReach_inv (total qcap : Nat) (s : PoolSt)
    (h : PoolReach total qcap s) :
    s.completed + s.busy + s.queued ≤ s.submitted ∧ s.busy ≤ total := by
  induction h with
  | init => exact ⟨Nat.le_refl 0, Nat.zero_le total⟩
  | step s s' _ hstep ih =>
    cases hstep <;> simp_all <;> omega

/-- C9: in every reachable pool state, `submitted + rejected ≥ completed`,
`busy ∈ [0, total]`, and `idle = total − busy ≥ 0` (idle computed in `int`
as the metrics snapshot does). -/
theorem pool_counter_invariants (total qcap : Nat) (s : PoolSt)
    (h : PoolReach total qcap s) :
    s.completed ≤ s.submitted + s.rejected ∧
    s.busy ≤ total ∧
    0 ≤ (total : Int) - (s.busy : Int) := by
  have hinv := poolReach_inv total qcap s h
  refine ⟨by omega, hinv.2, by omega⟩

/-- Witness for `pool_counter_invariants`: the state after one enqueue, one
run begun and finished, and one rejection, on a pool with 2 workers. -/
theorem pool_counter_invariants_witness :
    (⟨0, 0, 1, 1, 1⟩ : PoolSt).completed ≤
      (⟨0, 0, 1, 1, 1⟩ : PoolSt).submitted + (⟨0, 0, 1, 1, 1⟩ : PoolSt).rejected ∧
    (⟨0, 0, 1, 1, 1⟩ : PoolSt).busy ≤ 2 ∧
    0 ≤ ((2 : Nat) : Int) - ((⟨0, 0, 1, 1, 1⟩ : PoolSt).busy : Int) := by
  have h0 : PoolReach 2 4 ⟨0, 0, 0, 0, 0⟩ := PoolReach.init
  have h1 : PoolReach 2 4 ⟨1, 0, 1, 0, 0⟩ :=
    PoolReach.step _ _ h0 (PoolStep.enqueue _ (by norm_num))
  have h2 : PoolReach 2 4 ⟨0, 1, 1, 0, 0⟩ :=
    PoolReach.step _ _ h1 (PoolStep.beginRun _ (by norm_num) (by norm_num))
  have h3 : PoolReach 2 4 ⟨0, 0, 1, 1, 0⟩ :=
    PoolReach.step _ _ h2 (PoolStep.endRun _ (by norm_num))
  have h4 : PoolReach 2 4 ⟨0, 0, 1, 1, 1⟩ :=
    PoolReach.step _ _ h3 (PoolStep.reject _)
  exact pool_counter_invariants 2 4 _ h4

/-- C10: whenever `Submit` returns a non-empty id, the registry already
holds (before `Submit` returns) a Job under that id with status queued,
`enqueued_at` set to the submission instant, and a cancel function; hence
`SnapshotJSON` and `Cancel` on the new state find it, and a TTL eviction
pass never removes it while it is queued. -/
theorem submit_registers_job (st : MgrState) (task : String)
    (params : List (String × String)) (idg : String) (now : Int) :
    (submitSync st task params idg now).2 ≠ "" →
    ∃ j, (submitSync st task params idg now).1.jobs
           ((submitSync st task params idg now).2) = some j ∧
      j.status = Status.queued ∧ j.enqueuedAt = now ∧ j.hasCancel = true ∧
      j.task = task ∧ j.id = (submitSync st task params idg now).2 ∧
      snapshotFound (submitSync st task params idg now).1.jobs
        ((submitSync st task params idg now).2) = true ∧
      (∀ now2, (cancelJob (submitSync st task params idg now).1.jobs
        ((submitSync st task params idg now).2) now2).found = true) ∧
      (∀ cut, cleanup (submitSync st task params idg now).1.jobs cut
        ((submitSync st task params idg now).2) = some j) := by
  intro hne
  by_cases hp : st.pools task = false
  · exfalso
    have h0 : (submitSync st task params idg now).2 = "" := by
      unfold submitSync; rw [if_pos hp]
    exact hne h0
  · have heq : submitSync st task params idg now =
        (MgrState.mk
          (st.jobs.insert idg (Job.mk idg task params Status.queued now none none none true))
          st.pools, idg) := by
      unfold submitSync; rw [if_neg hp]
    rw [heq]
    refine ⟨Job.mk idg task params Status.queued now none none none true,
      ?_, rfl, rfl, rfl, rfl, rfl, ?_, ?_, ?_⟩
    · simp [Jmap.insert]
    · simp [snapshotFound, Jmap.insert]
    · intro now2
      simp [cancelJob, Jmap.insert]
    · intro cut
      simp [cleanup, Jmap.insert, isTerminal]

/-- Witness for `submit_registers_job`: submitting to a registered `sleep`
pool. -/
theorem submit_registers_job_witness :
    ∃ j, (submitSync ⟨Jmap.empty, fun t => t == "sleep"⟩ "sleep" [("seconds", "1")]
           "abcdef0123456789" 5).1.jobs
           ((submitSync ⟨Jmap.empty, fun t => t == "sleep"⟩ "sleep" [("seconds", "1")]
             "abcdef0123456789" 5).2) = some j ∧
      j.status = Status.queued ∧ j.enqueuedAt = 5 ∧ j.hasCancel = true ∧
      j.task = "sleep" ∧
      j.id = (submitSync ⟨Jmap.empty, fun t => t == "sleep"⟩ "sleep" [("seconds", "1")]
        "abcdef0123456789" 5).2 := by
  have h := submit_registers_job ⟨Jmap.empty, fun t => t == "sleep"⟩ "sleep"
    [("seconds", "1")] "abcdef0123456789" 5 (by decide)
  obtain ⟨j, h1, h2, h3, h4, h5, h6, _⟩ := h
  exact ⟨j, h1, h2, h3, h4, h5, h6⟩

/-- Helper: every error from the header loop is either `ErrBadRequest` or
the non-EOF reader error returned unchanged. -/
theorem parseHeaderLines_error_classified (ls : List (List Char)) (te : IOErr)
    (h : List (String × String)) (e : ParseErr)
    (herr : parseHeaderLines ls te h = Except.error e) :
    e = ParseErr.badRequest ∨ (te = IOErr.other ∧ e = ParseErr.ioerr IOErr.other) := by
  induction ls generalizing h with
  | nil =>
    cases te
    · simp [parseHeaderLines] at herr
      exact Or.inl herr.symm
    · simp [parseHeaderLines] at herr
      exact Or.inr ⟨rfl, herr.symm⟩
  | cons l rest ih =>
    by_cases h1 : l = ['\r', '\n']
    · simp [parseHeaderLines, h1] at herr
    · by_cases h2 : endsCRLF l = true
      · cases h3 : splitFirstColon (trimRightCRLF l) with
        | none =>
          simp [parseHeaderLines, h1, h2, h3] at herr
          exact Or.inl herr.symm
        | some kv =>
          obtain ⟨k, v⟩ := kv
          simp only [parseHeaderLines, if_neg h1, h2, Bool.not_true,
            Bool.false_eq_true, if_false, h3] at herr
          exact ih _ herr
      · have h2' : endsCRLF l = false := by
          cases hb : endsCRLF l
          · rfl
          · exact absurd hb h2
        simp [parseHeaderLines, h1, h2'] at herr
        exact Or.inl herr.symm

/-- C6 counterexample: a well-formed request line followed by a reader
error other than EOF during headers. The claim maps this to `bad_request`;
the code propagates the raw error unchanged. -/
theorem parse_reader_error_counterexample :
    parseRequest (ByteStream.mk ("GET / HTTP/1.0\r\n".toList) IOErr.other) =
      Except.error (ParseErr.ioerr IOErr.other) ∧
    ParseErr.ioerr IOErr.other ≠ ParseErr.badRequest := by
  exact ⟨rfl, by decide⟩

/-- C6 amended: `ParseRequest` fails with `bad_request` exactly on a
request line without CRLF suffix, a request line not splitting into three
space-separated tokens, a header line lacking a colon or CRLF, or EOF
during headers; a reader error other than EOF during headers is propagated
unchanged (not converted to `bad_request`); `bad_proto` when the protocol
token is not HTTP/1.0; and an error on the very first read — in particular
a raw EOF — is propagated unchanged. -/
theorem parse_request_error_cases :
    (∀ s : ByteStream, (splitLines s.content).1 = [] →
      parseRequest s = Except.error (ParseErr.ioerr s.tailErr)) ∧
    (∀ (s : ByteStream) (line : List Char) (rest : List (List Char)),
      (splitLines s.content).1 = line :: rest → endsCRLF line = false →
      parseRequest s = Except.error ParseErr.badRequest) ∧
    (∀ (s : ByteStream) (line : List Char) (rest : List (List Char)),
      (splitLines s.content).1 = line :: rest → endsCRLF line = true →
      (splitOnSpace (trimRightCRLF line)).length ≠ 3 →
      parseRequest s = Except.error ParseErr.badRequest) ∧
    (∀ (s : ByteStream) (line : List Char) (rest : List (List Char)) (m t p : List Char),
      (splitLines s.content).1 = line :: rest → endsCRLF line = true →
      splitOnSpace (trimRightCRLF line) = [m, t, p] → String.mk p ≠ "HTTP/1.0" →
      parseRequest s = Except.error ParseErr.badProto) ∧
    (∀ h : List (String × String),
      parseHeaderLines [] IOErr.eof h = Except.error ParseErr.badRequest) ∧
    (∀ h : List (String × String),
      parseHeaderLines [] IOErr.other h = Except.error (ParseErr.ioerr IOErr.other)) ∧
    (∀ (l : List Char) (rest : List (List Char)) (te : IOErr)
        (h : List (String × String)),
      l ≠ ['\r', '\n'] → endsCRLF l = false →
      parseHeaderLines (l :: rest) te h = Except.error ParseErr.badRequest) ∧
    (∀ (l : List Char) (rest : List (List Char)) (te : IOErr)
        (h : List (String × String)),
      l ≠ ['\r', '\n'] → endsCRLF l = true →
      splitFirstColon (trimRightCRLF l) = none →
      parseHeaderLines (l :: rest) te h = Except.error ParseErr.badRequest) ∧
    (∀ (ls : List (List Char)) (te : IOErr) (h : List (String × String)) (e : ParseErr),
      parseHeaderLines ls te h = Except.error e →
      e = ParseErr.badRequest ∨ (te = IOErr.other ∧ e = ParseErr.ioerr IOErr.other)) ∧
    (∀ s : ByteStream, parseRequest s = Except.error ParseErr.badRequest →
      ∃ line rest, (splitLines s.content).1 = line :: rest ∧
        (endsCRLF line = false ∨
         (splitOnSpace (trimRightCRLF line)).length ≠ 3 ∨
         parseHeaderLines rest s.tailErr [] = Except.error ParseErr.badRequest)) := by
  refine ⟨?_, ?_, ?_, ?_, ?_, ?_, ?_, ?_, parseHeaderLines_error_classified, ?_⟩
  · intro s h
    simp [parseRequest, h]
  · intro s line rest h1 h2
    simp [parseRequest, h1, h2]
  · intro s line rest h1 h2 h3
    simp only [parseRequest, h1, h2, Bool.not_true, Bool.false_eq_true, if_false]
    rcases hsp : splitOnSpace (trimRightCRLF line) with _ | ⟨a, _ | ⟨b, _ | ⟨c, _ | ⟨d, tl⟩⟩⟩⟩
    · rfl
    · rfl
    · rfl
    · exact absurd (by simp [hsp]) h3
    · rfl
  · intro s line rest m t p h1 h2 hsp hpr
    simp only [parseRequest, h1, h2, Bool.not_true, Bool.false_eq_true, if_false, hsp]
    rw [if_pos hpr]
  · intro h; rfl
  · intro h; rfl
  · intro l rest te h h1 h2
    simp [parseHeaderLines, h1, h2]
  · intro l rest te h h1 h2 h3
    simp [parseHeaderLines, h1, h2, h3]
  · intro s herr
    cases hls : (splitLines s.content).1 with
    | nil => simp [parseRequest, hls] at herr
    | cons line rest =>
      refine ⟨line, rest, rfl, ?_⟩
      by_cases h2 : endsCRLF line = true
      · rcases hsp : splitOnSpace (trimRightCRLF line) with _ | ⟨a, _ | ⟨b, _ | ⟨c, _ | ⟨d, tl⟩⟩⟩⟩
        · right; left; simp [hsp]
        · right; left; simp [hsp]
        · right; left; simp [hsp]
        · by_cases hpr : String.mk c ≠ "HTTP/1.0"
          · exfalso
            simp only [parseRequest, hls, h2, Bool.not_true, Bool.false_eq_true,
              if_false, hsp] at herr
            rw [if_pos hpr] at herr
            simp at herr
          · right; right
            simp only [parseRequest, hls, h2, Bool.not_true, Bool.false_eq_true,
              if_false, hsp] at herr
            rw [if_neg hpr] at herr
            cases hph : parseHeaderLines rest s.tailErr [] with
            | error e =>
              rw [hph] at herr
              simpa using herr
            | ok hh =>
              rw [hph] at herr
              simp at herr
        · right; left; simp [hsp]
      · left
        cases hb : endsCRLF line
        · rfl
        · exact absurd hb h2

/-- Witness for `parse_request_error_cases`: the empty stream propagates
EOF; a request line ending in bare LF is `bad_request`; a non-EOF reader
error at the headers is returned unchanged. -/
theorem parse_request_error_cases_witness :
    parseRequest (ByteStream.mk [] IOErr.eof) = Except.error (ParseErr.ioerr IOErr.eof) ∧
    parseRequest (ByteStream.mk ("GET / HTTP/1.0\n".toList) IOErr.eof) =
      Except.error ParseErr.badRequest ∧
    parseHeaderLines [] IOErr.other [] = Except.error (ParseErr.ioerr IOErr.other) := by
  refine ⟨parse_request_error_cases.1 (ByteStream.mk [] IOErr.eof) rfl, ?_,
    parse_request_error_cases.2.2.2.2.2.1 []⟩
  exact parse_request_error_cases.2.1 (ByteStream.mk ("GET / HTTP/1.0\n".toList) IOErr.eof)
    ("GET / HTTP/1.0\n".toList) [] (by rfl) (by rfl)
